import Mathlib

/-!
Verification development for the FlightOps MCP repository (server.py, client.py).

The Python source is shallowly embedded: strings are modelled as `List Char`
(wrapped in `String` at the API surface), JSON values as the inductive `JVal`,
MongoDB documents as the `StoredDoc` structure, and the asynchronous database
boundary as explicit list-of-document stores passed to the embedded operations.
Python exceptions that the source catches and converts to a value are modelled
by returning that value directly; `try/except` blocks that return an error
envelope are modelled by the corresponding error constructor.
-/

namespace FlightOps

/-! ## Generic helpers -/

/-- Try a function on each element in order, returning the first `some` result.
Models both a chain of `try/except ...: continue` attempts (strptime formats)
and prioritized regex alternation. -/
def firstSome : List α → (α → Option β) → Option β
  | [], _ => none
  | a :: as, f => match f a with
    | some b => some b
    | none => firstSome as f

/-! ## Character and character-list utilities (Python `str` operations) -/

/-- Python `str.strip()` (default whitespace stripping), on a char list. -/
def stripChars (cs : List Char) : List Char :=
  ((cs.dropWhile Char.isWhitespace).reverse.dropWhile Char.isWhitespace).reverse

/-- Python `str.lower()` restricted to ASCII, on a char list. -/
def lowerChars (cs : List Char) : List Char := cs.map Char.toLower

/-- Python `str.split(c)` for a one-character separator. -/
def splitOnChar (c : Char) : List Char → List (List Char)
  | [] => [[]]
  | x :: xs =>
    if x = c then [] :: splitOnChar c xs
    else match splitOnChar c xs with
      | h :: t => (x :: h) :: t
      | [] => [[x]]

/-- Python substring containment `needle in hay`. -/
def containsSub (needle hay : String) : Bool :=
  (hay.toList.tails).any (fun t => needle.toList.isPrefixOf t)

/-- The decimal digit character for `n % 10`-sized values. -/
def digitChar : Nat → Char
  | 0 => '0' | 1 => '1' | 2 => '2' | 3 => '3' | 4 => '4'
  | 5 => '5' | 6 => '6' | 7 => '7' | 8 => '8' | _ => '9'

/-- Numeric value of a decimal digit character. -/
def digitVal (c : Char) : Nat := c.toNat - 48

/-- Fuel-based decimal rendering of a natural number (most significant first).
The fuel makes the definition structurally recursive so that it evaluates
inside `decide`/`rfl` proofs. -/
def natDigitsCore : Nat → Nat → List Char → List Char
  | 0, _, acc => acc
  | fuel + 1, n, acc =>
    if n < 10 then digitChar n :: acc
    else natDigitsCore fuel (n / 10) (digitChar (n % 10) :: acc)

/-- Decimal digit string of a natural number, as Python `str(n)` for `n >= 0`. -/
def natDigits (n : Nat) : List Char := natDigitsCore (n + 1) n []

/-- Proof-side reformulation of `natDigits` by well-founded recursion. -/
def natDigitsWF (n : Nat) : List Char :=
  if _h : n < 10 then [digitChar n]
  else natDigitsWF (n / 10) ++ [digitChar (n % 10)]
decreasing_by exact Nat.div_lt_self (by omega) (by omega)

/-- Python `str(n)` for an integer (decimal, possibly with a leading minus). -/
def intChars (n : Int) : List Char :=
  if n < 0 then '-' :: natDigits n.natAbs else natDigits n.toNat

/-- Decimal value of a digit string (the value `int(s)` computes once the
sign and separators have been handled). -/
def digitsToNat (ds : List Char) : Nat :=
  ds.foldl (fun a c => a * 10 + digitVal c) 0

/-- Digit-and-underscore scanner of CPython `int()`: digits with single
underscores allowed strictly between digits. -/
def digitsValAux (acc : Nat) : List Char → Option Nat
  | [] => some acc
  | c :: rest =>
    if c.isDigit then digitsValAux (acc * 10 + digitVal c) rest
    else if c = '_' then
      match rest with
      | d :: rest2 => if d.isDigit then digitsValAux (acc * 10 + digitVal d) rest2 else none
      | [] => none
    else none

/-- Value of an unsigned decimal literal accepted by CPython `int()`
(nonempty, starts with a digit, single underscores only between digits). -/
def digitsVal (cs : List Char) : Option Nat :=
  match cs with
  | [] => none
  | c :: _ => if c.isDigit then digitsValAux 0 cs else none

/-- The sign-and-digits phase of CPython `int()` on the stripped text. -/
def pyIntSigned : List Char → Option Int
  | [] => none
  | c :: rest =>
    if c = '-' then (digitsVal rest).map (fun n => -(n : Int))
    else if c = '+' then (digitsVal rest).map (fun n => (n : Int))
    else (digitsVal (c :: rest)).map (fun n => (n : Int))

/-- Python `int(s)` on a string: strips whitespace, accepts an optional sign,
then a decimal literal; `none` models the `ValueError` case. -/
def pyIntOfChars (cs : List Char) : Option Int :=
  pyIntSigned (stripChars cs)

/-! ## Duration Codec (`parse_iso_duration_to_minutes`, server.py lines 931-983) -/

/-- One optional regex group `(?:(\d+)X)?` of the pattern
`PT(?:(\d+)H)?(?:(\d+)M)?`: a maximal digit run immediately followed by the
tag character; on failure the group is skipped and the position is unchanged.
(Backtracking inside `\d+` can never succeed here, because a shorter digit run
is followed by a digit, not by the tag, so maximal-run-plus-tag is exactly the
first-match semantics of the regex.) -/
def ptGroup (tag : Char) (cs : List Char) : Nat × List Char :=
  let ds := cs.takeWhile Char.isDigit
  if ds.isEmpty then (0, cs)
  else
    match cs.drop ds.length with
    | t :: rest => if t = tag then (digitsToNat ds, rest) else (0, cs)
    | [] => (0, cs)

/-- Value of the `PT...` designator body (the characters after `PT`):
optional hours group then optional minutes group, `hours * 60 + minutes`.
Missing groups contribute 0, as `int(match.group(i)) if ... else 0` does. -/
def ptValue (cs : List Char) : Int :=
  let hr := ptGroup 'H' cs
  let mr := ptGroup 'M' hr.2
  (hr.1 : Int) * 60 + (mr.1 : Int)

/-- Does the (stripped) text start with the designator prefix `PT`? -/
def startsWithPT : List Char → Bool
  | 'P' :: 'T' :: _ => true
  | _ => false

/-- `parse_iso_duration_to_minutes` on a char list; `none` models a `None`
argument (callers pass `fl.get(...)` values).  All exception paths of the
source return 0, so the embedding is total by construction. -/
def parseDurationChars : Option (List Char) → Int
  | none => 0
  | some cs =>
    if cs.isEmpty then 0
    else
      let s := stripChars cs
      if s.contains ':' then
        match splitOnChar ':' s with
        | [p1, p2] =>
          match pyIntOfChars p1, pyIntOfChars p2 with
          | some h, some m => h * 60 + m
          | _, _ => 0
        | _ => 0
      else if startsWithPT s then ptValue (s.drop 2)
      else 0

/-- `parse_iso_duration_to_minutes` (server.py lines 931-983). -/
def parse_iso_duration_to_minutes (s : Option String) : Int :=
  parseDurationChars (s.map String.toList)

/-- Modelled from the spec: the repository has no designator-form renderer
(`render_designator` appears only in the specification, section 8); per the
glossary a designator form is letter-tagged text with hour and minute
components, so minutes `m` render as `PT{h}H{mm}M` with `h = m / 60`,
`mm = m % 60`. -/
def render_designator (m : Nat) : String :=
  String.mk ('P' :: 'T' :: natDigits (m / 60) ++ 'H' :: natDigits (m % 60) ++ ['M'])

/-- Modelled from the spec: the repository has no colon-form renderer
(`render_colon` appears only in the specification, section 8); the colon form
is `hours:minutes`, so minutes `m` render as `{h}:{mm}`. -/
def render_colon (m : Nat) : String :=
  String.mk (natDigits (m / 60) ++ ':' :: natDigits (m % 60))

/-! ## JSON values (the payloads flowing between client, LLM plan and server) -/

/-- A JSON value as produced by `json.loads`: the argument values of plan
steps, tool responses, filter documents.  Numbers are integers (no float
appears in any of the embedded code paths). -/
inductive JVal where
  | null
  | bool (b : Bool)
  | num (n : Int)
  | str (s : String)
  | arr (elems : List JVal)
  | obj (fields : List (String × JVal))
deriving Repr

/-- Python truthiness of a JSON value: `None`, `False`, `0`, `""`, `[]` and
an empty dict are falsy, everything else is truthy. -/
def truthy : JVal → Bool
  | .null => false
  | .bool b => b
  | .num n => n != 0
  | .str s => !s.isEmpty
  | .arr xs => !xs.isEmpty
  | .obj fs => !fs.isEmpty

/-- Is the value a dict (`isinstance(v, dict)`)? -/
def JVal.isObj : JVal → Bool
  | .obj _ => true
  | _ => false

/-- Python `d.get(k)` on a JSON object field list: first binding of the key,
`None` when absent. -/
def jGet (fields : List (String × JVal)) (k : String) : JVal :=
  match fields.find? (fun kv => kv.1 == k) with
  | some kv => kv.2
  | none => .null

/-- Python `d.get(k, default)`. -/
def jGetD (fields : List (String × JVal)) (k : String) (dflt : JVal) : JVal :=
  match fields.find? (fun kv => kv.1 == k) with
  | some kv => kv.2
  | none => dflt

/-- Python `d[k] = v` on a dict modelled as an ordered field list: replaces
the binding in place if the key exists, appends otherwise. -/
def dictSet (fields : List (String × JVal)) (k : String) (v : JVal) : List (String × JVal) :=
  if fields.any (fun kv => kv.1 == k) then
    fields.map (fun kv => if kv.1 == k then (kv.1, v) else kv)
  else fields ++ [(k, v)]

/-- The ASCII apostrophe, bracket and brace characters used by Python `repr`. -/
def pyQuote : Char := Char.ofNat 39

def pyLBracket : Char := Char.ofNat 91

def pyRBracket : Char := Char.ofNat 93

def pyLBrace : Char := Char.ofNat 123

def pyRBrace : Char := Char.ofNat 125

mutual
/-- Python `repr` of a JSON value (as used by `str` on non-string values):
`None`/`True`/`False`, decimal integers, quoted strings, bracketed lists and
braced dicts.  (String escaping inside `repr` is not modelled; it is
irrelevant to every use, which only compares the result with `"unknown"`.) -/
def pyReprChars : JVal → List Char
  | .null => 'N' :: 'o' :: 'n' :: 'e' :: []
  | .bool true => 'T' :: 'r' :: 'u' :: 'e' :: []
  | .bool false => 'F' :: 'a' :: 'l' :: 's' :: 'e' :: []
  | .num n => intChars n
  | .str s => pyQuote :: s.toList ++ [pyQuote]
  | .arr xs => pyLBracket :: pyReprList xs ++ [pyRBracket]
  | .obj fs => pyLBrace :: pyReprFields fs ++ [pyRBrace]

def pyReprList : List JVal → List Char
  | [] => []
  | [x] => pyReprChars x
  | x :: y :: xs => pyReprChars x ++ ',' :: ' ' :: pyReprList (y :: xs)

def pyReprFields : List (String × JVal) → List Char
  | [] => []
  | [(k, v)] => (pyQuote :: k.toList ++ [pyQuote]) ++ ':' :: ' ' :: pyReprChars v
  | (k, v) :: f :: fs =>
    (pyQuote :: k.toList ++ [pyQuote]) ++ ':' :: ' ' :: pyReprChars v
      ++ ',' :: ' ' :: pyReprFields (f :: fs)
end

/-- Python `str(v)` for a JSON value: the string itself for strings, `repr`
otherwise. -/
def pyStrChars (v : JVal) : List Char :=
  match v with
  | .str s => s.toList
  | _ => pyReprChars v

/-! ## Plan Executor (`FlightOpsMCPClient.run_query`, client.py lines 423-478) -/

/-- A Step of a validated Plan: `{tool, arguments}` (client.py lines 439-440). -/
structure PlanStep where
  tool : String
  arguments : List (String × JVal)
deriving Repr

/-- The argument cleanup of client.py line 443:
`{k: v for k, v in args.items() if v and str(v).strip().lower() != "unknown"}`. -/
def cleanArgs (args : List (String × JVal)) : List (String × JVal) :=
  args.filter (fun kv =>
    truthy kv.2 && !(lowerChars (stripChars (pyStrChars kv.2)) == "unknown".toList))

/-- Python `int(v)` on a JSON value (client.py line 452); `none` models the
`TypeError`/`ValueError` path, which the outer `except` of `run_query`
converts into an error return. -/
def pyIntJ : JVal → Option Int
  | .num n => some n
  | .str s => pyIntOfChars s.toList
  | .bool b => some (if b then 1 else 0)
  | _ => none

/-- Outcome of the per-step argument preparation (client.py lines 442-453):
either the step is skipped with a local error entry (empty `query_json` for
the raw-filter tool), or the whole run aborts (an `int()` failure escapes to
the outer `except`), or the step is invoked with the prepared arguments. -/
inductive Prep where
  | skipStep (entry : String × JVal)
  | abortRun (msg : String)
  | invokeWith (args : List (String × JVal))
deriving Repr

/-- Argument preparation for one step: clean the arguments; for
`raw_mongodb_query` additionally require a truthy `query_json` and coerce
`limit` (default 50) through `int()` back into the arguments. -/
def prepareStep (tool : String) (rawArgs : List (String × JVal)) : Prep :=
  let args := cleanArgs rawArgs
  if tool == "raw_mongodb_query" then
    if truthy (jGetD args "query_json" (.str "")) then
      match pyIntJ (jGetD args "limit" (.num 50)) with
      | some n => .invokeWith (dictSet args "limit" (.num n))
      | none => .abortRun "invalid limit argument for int()"
    else .skipStep ("raw_mongodb_query", .obj [("error", .str "Empty query_json")])
  else .invokeWith args

/-- The structural ambiguity detection of client.py lines 460-470: pick the
candidate sub-object (`resp["data"]` when `resp.get("ok")` is truthy and
`data` is a dict, else `resp[tool]` when truthy and a dict, else `resp`
itself) and test the truthiness of its `needs_route_selection` key. -/
def signalsRouteSelection (tool : String) (resp : JVal) : Bool :=
  match resp with
  | .obj fields =>
    let candidate :=
      if truthy (jGet fields "ok") && (jGet fields "data").isObj then jGet fields "data"
      else if truthy (jGet fields tool) && (jGet fields tool).isObj then jGet fields tool
      else JVal.obj fields
    match candidate with
    | .obj cf => truthy (jGet cf "needs_route_selection")
    | _ => false
  | _ => false

/-- Result of `run_query`: the error dict `{"error": msg}`, the
short-circuit return `{"plan", "results", "needs_route_selection": True}`
(the Boolean field records the flag literally), or the normal return
`{"plan", "results", "summary"}` (the summary is produced by the external
LLM and is not modelled). -/
inductive RunResult where
  | errorResult (msg : String)
  | shortCircuited (results : List (String × JVal)) (needs_route_selection : Bool)
  | completed (results : List (String × JVal))
deriving Repr

/-- The step loop of `run_query` (client.py lines 437-473), parameterized by
the tool-invocation oracle `invoke` (the MCP server boundary): prepare each
step, invoke it, append `{tool: resp}` to the results, and return early with
`needs_route_selection: True` as soon as a response structurally signals an
ambiguous resolution. -/
def runQuerySteps (invoke : String → List (String × JVal) → JVal) :
    List PlanStep → List (String × JVal) → RunResult
  | [], results => .completed results
  | step :: rest, results =>
    match prepareStep step.tool step.arguments with
    | .skipStep entry => runQuerySteps invoke rest (results ++ [entry])
    | .abortRun msg => .errorResult msg
    | .invokeWith args =>
      let resp := invoke step.tool args
      let results2 := results ++ [(step.tool, resp)]
      if signalsRouteSelection step.tool resp then .shortCircuited results2 true
      else runQuerySteps invoke rest results2

/-- `run_query` after the plan has been produced (client.py lines 433-475):
an empty plan returns the error envelope immediately (line 434-435),
otherwise the steps are executed in order. -/
def run_query (invoke : String → List (String × JVal) → JVal)
    (plan : List PlanStep) : RunResult :=
  if plan.isEmpty then .errorResult "LLM did not produce a valid tool plan."
  else runQuerySteps invoke plan []

/-! ## Date validation (`validate_date`, server.py lines 68-96)

`validate_date` tries `datetime.strptime` on eight formats in order and
renders the first hit back as `YYYY-MM-DD`.  CPython `strptime` compiles each
format to a regex (`%Y` is four digits; `%m` is `1[0-2]|0[1-9]|[1-9]`; `%d`
is `3[01]|[12]\d|0[1-9]|[1-9]`; `%B`/`%b` are case-insensitive alternations
of the month names, longest first; literal whitespace matches a whitespace
run), takes the first match with the usual prioritized-alternation
backtracking, then separately requires that no unconverted data remains, and
finally validates the values through the `datetime` constructor.  The
embedding mirrors exactly that pipeline. -/

/-- A compiled `strptime` format token. -/
inductive FTok where
  | lit (c : Char)
  | ws
  | year4
  | monthNum
  | dayNum
  | monthFull
  | monthAbbr
deriving Repr

/-- Partial field assignment built while matching a format. -/
structure DateSt where
  y : Option Nat := none
  mo : Option Nat := none
  d : Option Nat := none
deriving Repr

/-- English month names, lowercased, in the priority order of the compiled
alternation (sorted by length, longest first, stably from calendar order). -/
def monthFullNames : List (Nat × List Char) :=
  [ (9, "september".toList)
  , (2, "february".toList), (11, "november".toList), (12, "december".toList)
  , (1, "january".toList), (10, "october".toList)
  , (8, "august".toList)
  , (3, "march".toList), (4, "april".toList)
  , (6, "june".toList), (7, "july".toList)
  , (5, "may".toList) ]

/-- English month abbreviations, lowercased, in calendar order (all the same
length, so the stable length sort keeps this order). -/
def monthAbbrNames : List (Nat × List Char) :=
  [ (1, "jan".toList), (2, "feb".toList), (3, "mar".toList), (4, "apr".toList)
  , (5, "may".toList), (6, "jun".toList), (7, "jul".toList), (8, "aug".toList)
  , (9, "sep".toList), (10, "oct".toList), (11, "nov".toList), (12, "dec".toList) ]

/-- Case-insensitive prefix test of a (lowercase) name against the input. -/
def nameHeadMatches (name cs : List Char) : Bool :=
  (cs.take name.length).map Char.toLower == name

/-- Candidates of a month-name alternation: each name that prefixes the
input, in alternation priority order. -/
def nameCands (names : List (Nat × List Char)) (cs : List Char) : List (Nat × List Char) :=
  names.filterMap (fun p =>
    if nameHeadMatches p.2 cs then some (p.1, cs.drop p.2.length) else none)

/-- Candidate (value, rest) pairs of one format token at the current input
position, in the priority order the compiled regex would try them. -/
def tokCands : FTok → List Char → List (Nat × List Char)
  | .lit c, x :: rest => if x = c then [(0, rest)] else []
  | .lit _, [] => []
  | .ws, cs =>
    let k := (cs.takeWhile Char.isWhitespace).length
    (List.range k).map (fun i => (0, cs.drop (k - i)))
  | .year4, a :: b :: c :: d :: rest =>
    if a.isDigit && b.isDigit && c.isDigit && d.isDigit then
      [(digitVal a * 1000 + digitVal b * 100 + digitVal c * 10 + digitVal d, rest)]
    else []
  | .year4, _ => []
  | .monthNum, cs =>
    (match cs with
     | a :: b :: rest =>
       (if a = '1' && (decide ('0' ≤ b) && decide (b ≤ '2')) then [(10 + digitVal b, rest)] else [])
         ++ (if a = '0' && (decide ('1' ≤ b) && decide (b ≤ '9')) then [(digitVal b, rest)] else [])
     | _ => [])
      ++ (match cs with
          | a :: rest => if decide ('1' ≤ a) && decide (a ≤ '9') then [(digitVal a, rest)] else []
          | [] => [])
  | .dayNum, cs =>
    (match cs with
     | a :: b :: rest =>
       (if a = '3' && (decide ('0' ≤ b) && decide (b ≤ '1')) then [(30 + digitVal b, rest)] else [])
         ++ (if (a = '1' || a = '2') && b.isDigit then [(digitVal a * 10 + digitVal b, rest)] else [])
         ++ (if a = '0' && (decide ('1' ≤ b) && decide (b ≤ '9')) then [(digitVal b, rest)] else [])
     | _ => [])
      ++ (match cs with
          | a :: rest => if decide ('1' ≤ a) && decide (a ≤ '9') then [(digitVal a, rest)] else []
          | [] => [])
  | .monthFull, cs => nameCands monthFullNames cs
  | .monthAbbr, cs => nameCands monthAbbrNames cs

/-- Record the matched value of a token into the field assignment. -/
def applyTok : FTok → Nat → DateSt → DateSt
  | .year4, v, st => { st with y := some v }
  | .monthNum, v, st => { st with mo := some v }
  | .monthFull, v, st => { st with mo := some v }
  | .monthAbbr, v, st => { st with mo := some v }
  | .dayNum, v, st => { st with d := some v }
  | .lit _, _, st => st
  | .ws, _, st => st

/-- Prioritized backtracking match of a compiled format against the input:
the first full-pattern match, together with the unconsumed remainder. -/
def matchToks : List FTok → List Char → DateSt → Option (DateSt × List Char)
  | [], cs, st => some (st, cs)
  | t :: ts, cs, st =>
    firstSome (tokCands t cs) (fun vc => matchToks ts vc.2 (applyTok t vc.1 st))

/-- Gregorian leap-year rule used by `datetime`. -/
def leapYear (y : Nat) : Bool :=
  y % 4 == 0 && (y % 100 != 0 || y % 400 == 0)

/-- Days in a month, as validated by the `datetime` constructor. -/
def daysInMonth (y mo : Nat) : Nat :=
  if mo = 2 then (if leapYear y then 29 else 28)
  else if mo = 4 || mo = 6 || mo = 9 || mo = 11 then 30
  else 31

/-- The `datetime(y, mo, d)` constructor validity check (the regex already
bounds `mo` to 1..12 and `d` to 1..31; year 0 is below `MINYEAR`). -/
def validYMD (y mo d : Nat) : Bool :=
  1 ≤ y && 1 ≤ d && d ≤ daysInMonth y mo

/-- `datetime.strptime(data, fmt)` restricted to the date fields used here:
`none` models `ValueError` (no regex match, unconverted trailing data, or an
invalid date), `some (y, mo, d)` a successful parse. -/
def strptimeDate (fmt : List FTok) (cs : List Char) : Option (Nat × Nat × Nat) :=
  match matchToks fmt cs {} with
  | some (st, []) =>
    match st.y, st.mo, st.d with
    | some y, some mo, some d => if validYMD y mo d then some (y, mo, d) else none
    | _, _, _ => none
  | _ => none

/-- The eight formats of `validate_date`, in order:
`%Y-%m-%d`, `%d-%m-%Y`, `%Y/%m/%d`, `%d/%m/%Y`, `%B %d, %Y`, `%d %B %Y`,
`%b %d, %Y`, `%d %b %Y`. -/
def dateFormats : List (List FTok) :=
  [ [.year4, .lit '-', .monthNum, .lit '-', .dayNum]
  , [.dayNum, .lit '-', .monthNum, .lit '-', .year4]
  , [.year4, .lit '/', .monthNum, .lit '/', .dayNum]
  , [.dayNum, .lit '/', .monthNum, .lit '/', .year4]
  , [.monthFull, .ws, .dayNum, .lit ',', .ws, .year4]
  , [.dayNum, .ws, .monthFull, .ws, .year4]
  , [.monthAbbr, .ws, .dayNum, .lit ',', .ws, .year4]
  , [.dayNum, .ws, .monthAbbr, .ws, .year4] ]

/-- Two-digit zero-padded rendering (`%m`, `%d` of `strftime`). -/
def pad2 (n : Nat) : List Char :=
  if n < 10 then ['0', digitChar n] else natDigits n

/-- `dt.strftime("%Y-%m-%d")`.  The glibc `%Y` used by CPython on Linux
renders the year unpadded (observable only for years below 1000, which no
recognized four-digit-year input below 1000 turns into a padded form). -/
def isoOfYMD (y mo d : Nat) : String :=
  String.mk (natDigits y ++ '-' :: pad2 mo ++ '-' :: pad2 d)

/-- `validate_date` (server.py lines 68-96): `none` for empty input, else
the first format that `strptime` accepts, rendered back as `YYYY-MM-DD`;
`none` if no format matches. -/
def validate_date (date_str : String) : Option String :=
  if date_str = "" then none
  else firstSome dateFormats (fun fmt =>
    (strptimeDate fmt date_str.toList).map (fun t => isoOfYMD t.1 t.2.1 t.2.2))

/-! ## Field Normalizer (`normalize_flight_number`, server.py lines 56-66) -/

/-- `normalize_flight_number` for the string inputs the tools pass to it:
`None` for empty input, else `int(str(x).strip())` with the `ValueError`
path returning `None`.  (The `isinstance(x, int)` fast path of the source is
the identity on integers and is not reachable from the embedded callers,
which all receive strings.) -/
def normalize_flight_number (flight_number : String) : Option Int :=
  if flight_number = "" then none
  else pyIntOfChars flight_number.toList

/-! ## Flight documents and queries (`make_query`, server.py lines 98-119) -/

/-- The `flightLegState` subdocument fields read by the embedded operations.
Every field is optional, as MongoDB documents are schema-flexible and the
source reads them all with `.get`. -/
structure FlightLegState where
  carrier : Option String := none
  flightNumber : Option Int := none
  dateOfOrigin : Option String := none
  startStation : Option String := none
  endStation : Option String := none
  scheduledStartTime : Option String := none
  seqNumber : Option Int := none
  flightStatus : Option String := none
deriving Repr, DecidableEq

/-- A stored document: its `_id` (as the string the source renders it to)
plus its `flightLegState`.  Fields outside the candidate projection play no
role in any embedded claim and are not modelled. -/
structure StoredDoc where
  id : String
  fl : FlightLegState
deriving Repr, DecidableEq

/-- The query document built by `make_query`: a conjunction of equality
constraints on the five flight-key fields, each present only when the input
was truthy. -/
structure Query where
  carrier : Option String := none
  flightNumber : Option Int := none
  dateOfOrigin : Option String := none
  startStation : Option String := none
  endStation : Option String := none
deriving Repr, DecidableEq

/-- Python truthiness filter on an optional string (absent or empty means
no constraint). -/
def optNonempty : Option String → Option String
  | none => none
  | some s => if s = "" then none else some s

/-- `make_query` (server.py lines 98-119): include each field only when
truthy. -/
def make_query (carrier : String) (flight_number : Option Int)
    (date_of_origin : Option String) (startStation endStation : Option String) : Query :=
  { carrier := if carrier = "" then none else some carrier
    flightNumber := flight_number
    dateOfOrigin := optNonempty date_of_origin
    startStation := optNonempty startStation
    endStation := optNonempty endStation }

/-- MongoDB equality matching of one optional query constraint against a
document field (a missing document field matches no equality constraint). -/
def fieldMatches (qv dv : Option String) : Bool :=
  match qv with
  | none => true
  | some v => dv == some v

/-- Does a stored document match a query document? -/
def docMatches (q : Query) (d : StoredDoc) : Bool :=
  fieldMatches q.carrier d.fl.carrier
    && (match q.flightNumber with
        | none => true
        | some n => d.fl.flightNumber == some n)
    && fieldMatches q.dateOfOrigin d.fl.dateOfOrigin
    && fieldMatches q.startStation d.fl.startStation
    && fieldMatches q.endStation d.fl.endStation

/-! ## Candidate Resolver (`_find_matching_doc_meta`, server.py lines 175-244) -/

/-- The Canonical Flight Key tuple used for deduplication (server.py lines
212-218). -/
def ukey (d : StoredDoc) :
    Option String × Option Int × Option String × Option String × Option String :=
  (d.fl.carrier, d.fl.flightNumber, d.fl.dateOfOrigin, d.fl.startStation, d.fl.endStation)

/-- The lightweight candidate projection returned for disambiguation
(server.py lines 226-233). -/
structure Candidate where
  doc_id : String
  startStation : Option String
  endStation : Option String
  scheduledStartTime : Option String
  seqNumber : Option Int
  flightStatus : Option String
deriving Repr, DecidableEq

/-- Project a stored document to its candidate. -/
def candOf (d : StoredDoc) : Candidate :=
  { doc_id := d.id
    startStation := d.fl.startStation
    endStation := d.fl.endStation
    scheduledStartTime := d.fl.scheduledStartTime
    seqNumber := d.fl.seqNumber
    flightStatus := d.fl.flightStatus }

/-- Byte-wise lexicographic comparison of char lists (the BSON string sort
order used by the `scheduledStartTime` ascending sort). -/
def charListLe : List Char → List Char → Bool
  | [], _ => true
  | _ :: _, [] => false
  | a :: as, b :: bs =>
    if a.toNat < b.toNat then true
    else if b.toNat < a.toNat then false
    else charListLe as bs

/-- Ascending sort key on an optional `scheduledStartTime` (missing values
sort first, as in BSON ascending order). -/
def sstLe (a b : StoredDoc) : Bool :=
  match a.fl.scheduledStartTime, b.fl.scheduledStartTime with
  | none, _ => true
  | some _, none => false
  | some x, some y => charListLe x.toList y.toList

/-- The result dict of `_find_matching_doc_meta`:
`{"count": len(docs), "documents": docs}` (the count of unique documents).
The exception branch (`{"count": 0, "documents": [], "error": ...}`) is a
database failure and cannot arise in the pure embedding. -/
structure Meta where
  count : Nat
  documents : List Candidate
deriving Repr, DecidableEq

/-- The deduplication loop of `_find_matching_doc_meta` (server.py lines
205-237): walk the cursor, skip documents whose Canonical Flight Key was
already seen, project the rest, and stop once `limit` unique documents have
been collected. -/
def dedupDocs (limit : Nat) :
    List StoredDoc →
    List (Option String × Option Int × Option String × Option String × Option String) →
    List Candidate → List Candidate
  | [], _, docs => docs
  | d :: rest, seen, docs =>
    if ukey d ∈ seen then dedupDocs limit rest seen docs
    else
      let docs2 := docs ++ [candOf d]
      if limit ≤ docs2.length then docs2
      else dedupDocs limit rest (ukey d :: seen) docs2

/-- `_find_matching_doc_meta` over an explicit store: the cursor is the
matching documents sorted by `scheduledStartTime` ascending and capped at
`limit * 2` by the database (server.py line 203), then deduplicated. -/
def find_matching_doc_meta (store : List StoredDoc) (q : Query) (limit : Nat) : Meta :=
  let cursor :=
    (List.insertionSort (fun a b => sstLe a b = true) (store.filter (docMatches q))).take
      (limit * 2)
  let docs := dedupDocs limit cursor [] []
  { count := docs.length, documents := docs }

/-- `_get_document_by_id` (server.py lines 246-287): fetch by `_id`.  Both
the `ObjectId` attempt and the string fallback look up the same identifier;
the embedding is a single lookup on the rendered id. -/
def get_document_by_id (store : List StoredDoc) (doc_id : String) : Option StoredDoc :=
  store.find? (fun d => d.id == doc_id)

/-- Outcome of a single-flight lookup tool: the error envelope
`{"ok": False, "error": {"message", "code"}}`, the resolved full record
(under the field projection of the calling tool), or the ambiguity envelope
`{"needs_route_selection": True, "count", "matches", "original_query"}`. -/
inductive Outcome where
  | error (msg : String) (code : Nat)
  | resolved (doc : StoredDoc)
  | ambiguous (count : Nat) (candidates : List Candidate) (original_query : Query)
deriving Repr, DecidableEq

/-- The classification shared by the single-flight lookup tools (server.py
lines 380-398 in `get_flight_basic_info` and the identical blocks of the
sibling tools): zero unique candidates is a 404, exactly one fetches and
returns the full record, several return the ambiguity envelope. -/
def classifyLookup (store : List StoredDoc) (q : Query) : Outcome :=
  let meta := find_matching_doc_meta store q 50
  if meta.count = 0 then .error "No matching document found." 404
  else if meta.count = 1 then
    match meta.documents with
    | c :: _ =>
      match get_document_by_id store c.doc_id with
      | some d => .resolved d
      | none => .error "Document not found" 404
    | [] => .error "Document not found" 404
  else .ambiguous meta.count meta.documents q

/-- `get_flight_basic_info` (server.py lines 328-398): normalize the flight
number and date, reject an unparseable date with a 400 envelope, then build
the query and classify. -/
def get_flight_basic_info (store : List StoredDoc)
    (carrier flight_number date_of_origin : String)
    (startStation endStation : Option String) : Outcome :=
  let fn := normalize_flight_number flight_number
  if date_of_origin = "" then
    classifyLookup store (make_query carrier fn none startStation endStation)
  else
    match validate_date date_of_origin with
    | none => .error "Invalid date_of_origin format. Expected YYYY-MM-DD or common date formats" 400
    | some dob => classifyLookup store (make_query carrier fn (some dob) startStation endStation)

/-- `get_equipment_info` (server.py lines 462-516): identical pipeline to
`get_flight_basic_info` except that it has no
`if date_of_origin and not dob: return 400` guard — an unparseable date is
silently dropped from the query. -/
def get_equipment_info (store : List StoredDoc)
    (carrier flight_number date_of_origin : String)
    (startStation endStation : Option String) : Outcome :=
  let fn := normalize_flight_number flight_number
  let dob := if date_of_origin = "" then none else validate_date date_of_origin
  classifyLookup store (make_query carrier fn dob startStation endStation)

/-! ## Raw-filter query guard (`raw_mongodb_query`, server.py lines 720-806) -/

/-- Result of the validation phase of `raw_mongodb_query`: either an error
envelope (before the store is touched), or the query, projection and
clamped limit that are handed to the store.  The `executes` constructor
marks the store-access boundary: `col.find(...)` runs exactly there. -/
inductive RawOutcome where
  | err (msg : String) (code : Nat)
  | executes (query : List (String × JVal)) (projection : List (String × JVal)) (limit : Int)
deriving Repr

/-- The operator denylist of server.py line 767. -/
def forbidden_ops : List String :=
  ["$where", "$out", "$merge", "$accumulator", "$function"]

/-- Does a top-level key trip the safety guard (`key in forbidden_ops or
key.startswith("$")`, server.py line 769)? -/
def forbiddenKey (k : String) : Bool :=
  forbidden_ops.contains k || ['$'].isPrefixOf k.toList

/-- The fallback projection of server.py lines 777-782. -/
def defaultRawProjection : List (String × JVal) :=
  [ ("_id", .num 0)
  , ("flightLegState.carrier", .num 1)
  , ("flightLegState.flightNumber", .num 1)
  , ("flightLegState.dateOfOrigin", .num 1) ]

/-- `raw_mongodb_query` after JSON parsing (server.py lines 761-787): type
checks, the operator guard over the top-level keys (first offender wins),
the limit clamp `min(max(1, limit), 50)`, and the projection fallback; the
store is accessed only by the returned `executes`.  (JSON parsing itself is
the standard library boundary; the claim concerns the parsed document.) -/
def raw_mongodb_query (query : JVal) (projection : Option JVal) (limit : Int) : RawOutcome :=
  match query with
  | .obj qf =>
    match projection with
    | some p =>
      if truthy p && !p.isObj then .err "projection must be a JSON object." 400
      else rawAfterTypeChecks qf (if p.isObj then some p else none) limit
    | none => rawAfterTypeChecks qf none limit
  | _ => .err "query_json must be a JSON object." 400

where rawAfterTypeChecks (qf : List (String × JVal)) (proj : Option JVal) (limit : Int) :
    RawOutcome :=
  match qf.find? (fun kv => forbiddenKey kv.1) with
  | some kv => .err ("Operator " ++ kv.1 ++ " is not allowed.") 400
  | none =>
    let clamped := min (max 1 limit) 50
    match proj with
    | some (.obj pf) =>
      if pf.isEmpty then .executes qf defaultRawProjection clamped
      else .executes qf pf clamped
    | _ => .executes qf defaultRawProjection clamped

/-! ## Aggregation filter rewrite (`run_aggregated_query`, server.py lines 854-899) -/

/-- The textual encodings substituted for a `$gt: 0` delay comparison
(server.py line 879). -/
def ninSentinels : JVal :=
  .arr [.str "PT0H0M", .str "00:00", .str "", .null]

/-- The textual encodings substituted for an `$eq: 0` delay comparison
(server.py line 883). -/
def inSentinels : JVal :=
  .arr [.str "PT0H0M", .str "00:00"]

/-- The operator loop over a delay-field condition dict (server.py lines
876-887): the first `$gt: 0` or `$eq: 0` rewrites the whole condition and
breaks; other operators accumulate unchanged. -/
def delayOpsLoop : List (String × JVal) → List (String × JVal) → Option JVal × List (String × JVal)
  | [], acc => (none, acc)
  | (op, v) :: rest, acc =>
    match op, v with
    | "$gt", .num 0 => (some (.obj [("$nin", ninSentinels)]), acc)
    | "$eq", .num 0 => (some (.obj [("$in", inSentinels)]), acc)
    | _, _ => delayOpsLoop rest (acc ++ [(op, v)])

/-- Normalization of one filter entry (server.py lines 869-893):
`flightNumber` keys pass through unchanged; `delays.total` keys with a dict
value run the operator loop (a rewrite wins over the accumulated remainder,
an empty remainder with no rewrite drops the key); everything else passes
through unchanged. -/
def normalizeEntry : String × JVal → Option (String × JVal)
  | (k, v) =>
    if containsSub "flightNumber" k then some (k, v)
    else if containsSub "delays.total" k then
      match v with
      | .obj ops =>
        match delayOpsLoop ops [] with
        | (some r, _) => some (k, r)
        | (none, []) => none
        | (none, conds) => some (k, .obj conds)
      | _ => some (k, v)
    else some (k, v)

/-- The normalized filter built from `parsed_filter` (server.py lines
869-895): each entry of the parsed JSON object is processed once, in order. -/
def normalize_filter (f : List (String × JVal)) : List (String × JVal) :=
  f.filterMap normalizeEntry

/-! ## Concrete example data used by witnesses and counterexamples -/

/-- A stored flight 6E 215 DEL-BOM on 2024-06-23. -/
def sampleDoc : StoredDoc :=
  { id := "665f0a"
    fl := { carrier := some "6E", flightNumber := some 215
            dateOfOrigin := some "2024-06-23"
            startStation := some "DEL", endStation := some "BOM"
            scheduledStartTime := some "2024-06-23T06:00:00Z"
            seqNumber := some 1, flightStatus := some "COMPLETED" } }

/-- Three raw records of the same Canonical Flight Key (sequence-counter
duplicates of one flight). -/
def dupDoc1 : StoredDoc :=
  { id := "b1"
    fl := { carrier := some "6E", flightNumber := some 215
            dateOfOrigin := some "2024-06-23"
            startStation := some "DEL", endStation := some "BOM"
            scheduledStartTime := some "2024-06-23T06:00:00Z"
            seqNumber := some 1, flightStatus := some "COMPLETED" } }

def dupDoc2 : StoredDoc :=
  { id := "b2"
    fl := { carrier := some "6E", flightNumber := some 215
            dateOfOrigin := some "2024-06-23"
            startStation := some "DEL", endStation := some "BOM"
            scheduledStartTime := some "2024-06-23T06:00:00Z"
            seqNumber := some 2, flightStatus := some "COMPLETED" } }

def dupDoc3 : StoredDoc :=
  { id := "b3"
    fl := { carrier := some "6E", flightNumber := some 215
            dateOfOrigin := some "2024-06-23"
            startStation := some "DEL", endStation := some "BOM"
            scheduledStartTime := some "2024-06-23T06:05:00Z"
            seqNumber := some 3, flightStatus := some "COMPLETED" } }

/-- The query for 6E 215 on 2024-06-23 (no station constraints). -/
def dupQuery : Query :=
  { carrier := some "6E", flightNumber := some 215
    dateOfOrigin := some "2024-06-23" }

/-- A normal-envelope response for the first executor step. -/
def okResp : JVal :=
  .obj [("ok", .bool true), ("data", .obj [("flightStatus", .str "COMPLETED")])]

/-- An ambiguity-envelope response (`needs_route_selection: True`) for the
second executor step. -/
def ambigResp : JVal :=
  .obj [("ok", .bool true),
        ("data", .obj [("needs_route_selection", .bool true), ("count", .num 2)])]

/-- A concrete tool-invocation oracle for the executor witness: the second
tool resolves ambiguously, everything else resolves normally. -/
def invokeW (tool : String) (_args : List (String × JVal)) : JVal :=
  if tool == "get_delay_summary" then ambigResp else okResp

def stepA : PlanStep := { tool := "get_flight_basic_info", arguments := [] }

def stepB : PlanStep := { tool := "get_delay_summary", arguments := [] }

def stepC : PlanStep := { tool := "get_operation_times", arguments := [] }

/-- The ten decimal digit characters. -/
def decimalChars : List Char :=
  ['0', '1', '2', '3', '4', '5', '6', '7', '8', '9']

/-! # Theorems

First the supporting lemmas about the embedded primitives, then one theorem
per claim (with its witness or counterexample where applicable). -/

/-! ## Decimal digit lemmas -/

theorem digitChar_mem_decimal (k : Nat) : digitChar k ∈ decimalChars := by
  unfold digitChar
  split <;> decide

theorem decimal_char_facts {c : Char} (h : c ∈ decimalChars) :
    c.isDigit = true ∧ c.isWhitespace = false ∧ c ≠ ':' ∧ c ≠ '-' ∧ c ≠ '+'
      ∧ Char.toLower c = c ∧ c ≠ 'u' := by
  fin_cases h <;> exact ⟨rfl, rfl, by decide, by decide, by decide, by decide, by decide⟩

theorem digitVal_digitChar {k : Nat} (h : k < 10) : digitVal (digitChar k) = k := by
  interval_cases k <;> decide

theorem natDigitsCore_eq_wf :
    ∀ (fuel n : Nat) (acc : List Char), n < fuel →
      natDigitsCore fuel n acc = natDigitsWF n ++ acc := by
  intro fuel
  induction fuel with
  | zero => intro n acc h; omega
  | succ fuel ih =>
    intro n acc h
    rw [natDigitsCore, natDigitsWF]
    by_cases h10 : n < 10
    · simp [h10]
    · have hlt : n / 10 < fuel :=
        Nat.lt_of_lt_of_le (Nat.div_lt_self (by omega) (by omega)) (by omega)
      simp only [h10, if_false, dif_neg]
      rw [ih (n / 10) _ hlt]
      simp

theorem natDigits_eq_wf (n : Nat) : natDigits n = natDigitsWF n := by
  have := natDigitsCore_eq_wf (n + 1) n [] (by omega)
  simpa [natDigits] using this

theorem natDigitsWF_ne_nil (n : Nat) : natDigitsWF n ≠ [] := by
  rw [natDigitsWF]
  split <;> simp

theorem natDigitsWF_mem_decimal (n : Nat) : ∀ c ∈ natDigitsWF n, c ∈ decimalChars := by
  induction n using Nat.strong_induction_on with
  | _ n ih =>
    rw [natDigitsWF]
    split
    · intro c hc
      simp only [List.mem_singleton] at hc
      subst hc
      exact digitChar_mem_decimal n
    · intro c hc
      rcases List.mem_append.mp hc with h1 | h1
      · exact ih (n / 10) (Nat.div_lt_self (by omega) (by omega)) c h1
      · simp only [List.mem_singleton] at h1
        subst h1
        exact digitChar_mem_decimal (n % 10)

theorem natDigits_ne_nil (n : Nat) : natDigits n ≠ [] := by
  rw [natDigits_eq_wf]; exact natDigitsWF_ne_nil n

theorem natDigits_mem_decimal (n : Nat) : ∀ c ∈ natDigits n, c ∈ decimalChars := by
  rw [natDigits_eq_wf]; exact natDigitsWF_mem_decimal n

theorem digitsToNat_append_last (a : List Char) (c : Char) :
    digitsToNat (a ++ [c]) = digitsToNat a * 10 + digitVal c := by
  simp [digitsToNat, List.foldl_append]

theorem digitsToNat_natDigitsWF (n : Nat) : digitsToNat (natDigitsWF n) = n := by
  induction n using Nat.strong_induction_on with
  | _ n ih =>
    rw [natDigitsWF]
    split
    · next h =>
      simp [digitsToNat, digitVal_digitChar h]
    · next h =>
      rw [digitsToNat_append_last, ih (n / 10) (Nat.div_lt_self (by omega) (by omega)),
        digitVal_digitChar (Nat.mod_lt n (by omega))]
      omega

theorem digitsToNat_natDigits (n : Nat) : digitsToNat (natDigits n) = n := by
  rw [natDigits_eq_wf]; exact digitsToNat_natDigitsWF n

/-! ## Strip, split, takeWhile lemmas -/

theorem dropWhile_eq_self_of_none {p : α → Bool} :
    ∀ {l : List α}, (∀ c ∈ l, p c = false) → l.dropWhile p = l
  | [], _ => rfl
  | c :: cs, h => by
    rw [List.dropWhile_cons]
    simp [h c (List.mem_cons_self c cs)]

theorem stripChars_eq_self {cs : List Char}
    (h : ∀ c ∈ cs, c.isWhitespace = false) : stripChars cs = cs := by
  unfold stripChars
  rw [dropWhile_eq_self_of_none h,
    dropWhile_eq_self_of_none (by intro c hc; exact h c (List.mem_reverse.mp hc)),
    List.reverse_reverse]

theorem stripChars_cons_of_head {c : Char} {rest : List Char}
    (h : c.isWhitespace = false) : ∃ t, stripChars (c :: rest) = c :: t := by
  unfold stripChars
  rw [List.dropWhile_cons]
  simp only [h, Bool.false_eq_true, if_false]
  have hrev : (c :: rest).reverse = rest.reverse ++ [c] := by simp
  rw [hrev, List.dropWhile_append]
  by_cases he : (rest.reverse.dropWhile Char.isWhitespace).isEmpty
  · refine ⟨[], ?_⟩
    simp [he, List.dropWhile_cons, h]
  · refine ⟨(rest.reverse.dropWhile Char.isWhitespace).reverse, ?_⟩
    simp [he]

theorem splitOnChar_no_sep {sep : Char} :
    ∀ {l : List Char}, (∀ c ∈ l, c ≠ sep) → splitOnChar sep l = [l]
  | [], _ => rfl
  | c :: cs, h => by
    unfold splitOnChar
    rw [splitOnChar_no_sep (fun x hx => h x (List.mem_cons_of_mem c hx))]
    simp [h c (List.mem_cons_self c cs)]

theorem splitOnChar_append_sep {sep : Char} {b : List Char} :
    ∀ {a : List Char}, (∀ c ∈ a, c ≠ sep) →
      splitOnChar sep (a ++ sep :: b) = a :: splitOnChar sep b
  | [], _ => by
    simp [splitOnChar]
  | x :: xs, h => by
    have hx : x ≠ sep := h x (List.mem_cons_self x xs)
    have ih := splitOnChar_append_sep (b := b) (a := xs)
      (fun c hc => h c (List.mem_cons_of_mem x hc))
    simp only [List.cons_append, splitOnChar, if_neg hx, List.append_eq, ih]

theorem takeWhile_all_append {p : Char → Bool} {rest : List Char} {t : Char}
    (ht : p t = false) :
    ∀ {ds : List Char}, (∀ c ∈ ds, p c = true) →
      (ds ++ t :: rest).takeWhile p = ds
  | [], _ => by simp [List.takeWhile_cons, ht]
  | c :: cs, h => by
    have ih := @takeWhile_all_append p rest t ht cs
      (fun x hx => h x (List.mem_cons_of_mem c hx))
    simp only [List.cons_append, List.takeWhile_cons, h c (List.mem_cons_self c cs)]
    simp [ih]

theorem contains_eq_false_of_not_mem {cs : List Char} {c : Char} (h : c ∉ cs) :
    cs.contains c = false := by
  simpa using h

/-! ## Python int lemmas -/

theorem digitsValAux_all_digits :
    ∀ {ds : List Char} (acc : Nat), (∀ c ∈ ds, c.isDigit = true) →
      digitsValAux acc ds = some (ds.foldl (fun a c => a * 10 + digitVal c) acc)
  | [], acc, _ => rfl
  | c :: cs, acc, h => by
    unfold digitsValAux
    rw [h c (List.mem_cons_self c cs)]
    simp only [if_true]
    rw [digitsValAux_all_digits (acc * 10 + digitVal c)
      (fun x hx => h x (List.mem_cons_of_mem c hx))]
    rfl

theorem pyIntOfChars_digits {ds : List Char}
    (hds : ∀ c ∈ ds, c ∈ decimalChars) (hne : ds ≠ []) :
    pyIntOfChars ds = some (digitsToNat ds) := by
  obtain ⟨c, cs, rfl⟩ := List.exists_cons_of_ne_nil hne
  have hc := decimal_char_facts (hds c (List.mem_cons_self c cs))
  have hstrip : stripChars (c :: cs) = c :: cs :=
    stripChars_eq_self (fun x hx => (decimal_char_facts (hds x hx)).2.1)
  have hdv : digitsVal (c :: cs) = some (digitsToNat (c :: cs)) := by
    simp only [digitsVal, hc.1, if_true]
    rw [digitsValAux_all_digits 0 (fun x hx => (decimal_char_facts (hds x hx)).1)]
    rfl
  rw [pyIntOfChars, hstrip]
  simp only [pyIntSigned, if_neg hc.2.2.2.1, if_neg hc.2.2.2.2.1, hdv]
  rfl

/-! ## Duration Codec lemmas -/

theorem contains_eq_true_of_mem {cs : List Char} {c : Char} (h : c ∈ cs) :
    cs.contains c = true := by
  simpa using h

theorem ptGroup_exact {tag : Char} {ds rest : List Char}
    (hds : ∀ c ∈ ds, c.isDigit = true) (hne : ds ≠ []) (htag : tag.isDigit = false) :
    ptGroup tag (ds ++ tag :: rest) = (digitsToNat ds, rest) := by
  have htw : (ds ++ tag :: rest).takeWhile Char.isDigit = ds :=
    takeWhile_all_append htag hds
  have hdr : (ds ++ tag :: rest).drop ds.length = tag :: rest := by
    simpa using List.drop_left ds (tag :: rest)
  have hie : ds.isEmpty = false := by
    obtain ⟨c, cs, rfl⟩ := List.exists_cons_of_ne_nil hne
    rfl
  simp only [ptGroup, htw, hdr, hie, Bool.false_eq_true, if_false]
  simp

theorem parse_designator_chars {dh dm : List Char}
    (hh : ∀ c ∈ dh, c ∈ decimalChars) (hm : ∀ c ∈ dm, c ∈ decimalChars)
    (hhne : dh ≠ []) (hmne : dm ≠ []) :
    parseDurationChars (some ('P' :: 'T' :: dh ++ 'H' :: dm ++ ['M']))
      = (digitsToNat dh : Int) * 60 + (digitsToNat dm : Int) := by
  have hassoc : 'P' :: 'T' :: dh ++ 'H' :: dm ++ ['M']
      = 'P' :: 'T' :: (dh ++ 'H' :: (dm ++ ['M'])) := by
    simp
  rw [hassoc]
  set L := 'P' :: 'T' :: (dh ++ 'H' :: (dm ++ ['M'])) with hL
  have hmemf : ∀ c ∈ L, c.isWhitespace = false ∧ c ≠ ':' := by
    intro c hc
    rw [hL] at hc
    simp only [List.mem_cons, List.mem_append, List.mem_singleton] at hc
    rcases hc with rfl | rfl | h1 | rfl | h1 | rfl | h2
    · exact ⟨by decide, by decide⟩
    · exact ⟨by decide, by decide⟩
    · exact ⟨(decimal_char_facts (hh c h1)).2.1, (decimal_char_facts (hh c h1)).2.2.1⟩
    · exact ⟨by decide, by decide⟩
    · exact ⟨(decimal_char_facts (hm c h1)).2.1, (decimal_char_facts (hm c h1)).2.2.1⟩
    · exact ⟨by decide, by decide⟩
    · exact absurd h2 (List.not_mem_nil c)
  have hstrip : stripChars L = L := stripChars_eq_self (fun c hc => (hmemf c hc).1)
  have hcol : L.contains ':' = false :=
    contains_eq_false_of_not_mem (fun hmem => (hmemf ':' hmem).2 rfl)
  have hie : L.isEmpty = false := rfl
  have hg1 : ptGroup 'H' (dh ++ 'H' :: (dm ++ ['M']))
      = (digitsToNat dh, dm ++ ['M']) :=
    ptGroup_exact (fun c hc => (decimal_char_facts (hh c hc)).1) hhne (by decide)
  have hg2 : ptGroup 'M' (dm ++ 'M' :: ([] : List Char)) = (digitsToNat dm, []) :=
    ptGroup_exact (fun c hc => (decimal_char_facts (hm c hc)).1) hmne (by decide)
  simp only [parseDurationChars, hie, Bool.false_eq_true, if_false, hstrip, hcol]
  have hpt : startsWithPT L = true := rfl
  simp only [hpt, if_true]
  have hdrop : L.drop 2 = dh ++ 'H' :: (dm ++ ['M']) := rfl
  rw [hdrop]
  simp only [ptValue, hg1]
  rw [show dm ++ ['M'] = dm ++ 'M' :: ([] : List Char) from rfl, hg2]

theorem parse_colon_chars {dh dm : List Char}
    (hh : ∀ c ∈ dh, c ∈ decimalChars) (hm : ∀ c ∈ dm, c ∈ decimalChars)
    (hhne : dh ≠ []) (hmne : dm ≠ []) :
    parseDurationChars (some (dh ++ ':' :: dm))
      = (digitsToNat dh : Int) * 60 + (digitsToNat dm : Int) := by
  set L := dh ++ ':' :: dm with hL
  have hws : ∀ c ∈ L, c.isWhitespace = false := by
    intro c hc
    rw [hL] at hc
    simp only [List.mem_append, List.mem_cons] at hc
    rcases hc with h1 | rfl | h1
    · exact (decimal_char_facts (hh c h1)).2.1
    · decide
    · exact (decimal_char_facts (hm c h1)).2.1
  have hstrip : stripChars L = L := stripChars_eq_self hws
  have hie : L.isEmpty = false := by
    obtain ⟨c, cs, rfl⟩ := List.exists_cons_of_ne_nil hhne
    rfl
  have hcol : L.contains ':' = true :=
    contains_eq_true_of_mem
      (List.mem_append.mpr (Or.inr (List.mem_cons_self ':' dm)))
  have hsplit : splitOnChar ':' L = [dh, dm] := by
    rw [hL, splitOnChar_append_sep (fun c hc => (decimal_char_facts (hh c hc)).2.2.1),
      splitOnChar_no_sep (fun c hc => (decimal_char_facts (hm c hc)).2.2.1)]
  simp only [parseDurationChars, hie, Bool.false_eq_true, if_false, hstrip, hcol, if_true,
    hsplit, pyIntOfChars_digits hh hhne, pyIntOfChars_digits hm hmne]
  rfl

/-- C3: for all minute counts m, parsing the rendered designator-form text of
m yields m back, and parsing the rendered colon-form text of m yields m back:
`parse(render_designator(m)) == m` and `parse(render_colon(m)) == m`. -/
theorem duration_codec_roundtrip (m : Nat) :
    parse_iso_duration_to_minutes (some (render_designator m)) = (m : Int)
  ∧ parse_iso_duration_to_minutes (some (render_colon m)) = (m : Int) := by
  constructor
  · have h := @parse_designator_chars (natDigits (m / 60)) (natDigits (m % 60))
      (natDigits_mem_decimal _) (natDigits_mem_decimal _)
      (natDigits_ne_nil _) (natDigits_ne_nil _)
    rw [parse_iso_duration_to_minutes]
    show parseDurationChars
      (some ('P' :: 'T' :: natDigits (m / 60) ++ 'H' :: natDigits (m % 60) ++ ['M'])) = (m : Int)
    rw [h, digitsToNat_natDigits, digitsToNat_natDigits]
    omega
  · have h := @parse_colon_chars (natDigits (m / 60)) (natDigits (m % 60))
      (natDigits_mem_decimal _) (natDigits_mem_decimal _)
      (natDigits_ne_nil _) (natDigits_ne_nil _)
    rw [parse_iso_duration_to_minutes]
    show parseDurationChars
      (some (natDigits (m / 60) ++ ':' :: natDigits (m % 60))) = (m : Int)
    rw [h, digitsToNat_natDigits, digitsToNat_natDigits]
    omega

/-- Witness for C3: the round-trip at the concrete minute count 108
(the 1 hour 48 minutes of the specification scenario). -/
theorem duration_codec_roundtrip_witness :
    parse_iso_duration_to_minutes (some (render_designator 108)) = (108 : Int)
  ∧ parse_iso_duration_to_minutes (some (render_colon 108)) = (108 : Int) :=
  duration_codec_roundtrip 108

/-- C8: the duration parser maps every member of the zero-delay sentinel set
to 0 minutes: `parse(x) == 0` for x in PT0H0M, 00:00, the empty string, and
an absent value. -/
theorem zero_delay_sentinels_parse_to_zero :
    parse_iso_duration_to_minutes (some "PT0H0M") = 0
  ∧ parse_iso_duration_to_minutes (some "00:00") = 0
  ∧ parse_iso_duration_to_minutes (some "") = 0
  ∧ parse_iso_duration_to_minutes none = 0 := by
  refine ⟨by decide, by decide, by decide, rfl⟩

/-- C10: the duration parser is total by construction (every exception path
of the source returns 0, and the embedding returns an integer for every
input); every input outside the two recognized shapes (a colon form or a
designator-prefixed form after stripping) yields 0, so a nonzero result only
arises from a recognized shape; and the result is not guaranteed
non-negative: the colon form "-1:30" parses to -30. -/
theorem duration_parser_total_and_signed :
    (∀ cs : List Char, parseDurationChars (some cs) ≠ 0 →
        (stripChars cs).contains ':' = true ∨ startsWithPT (stripChars cs) = true)
  ∧ parse_iso_duration_to_minutes (some "-1:30") = -30
  ∧ parse_iso_duration_to_minutes (some "-1:30") < 0 := by
  refine ⟨?_, by decide, by decide⟩
  intro cs h
  by_cases h1 : cs.isEmpty
  · exact absurd (by simp [parseDurationChars, h1]) h
  · by_cases h2 : (stripChars cs).contains ':'
    · exact Or.inl h2
    · by_cases h3 : startsWithPT (stripChars cs)
      · exact Or.inr h3
      · have h2m : ':' ∉ stripChars cs := by simpa using h2
        exact absurd (by simp [parseDurationChars, h1, h2m, h3]) h

/-- Witness for C10: the nonzero parse of "1:30" is licensed by the
colon-form shape. -/
theorem duration_parser_total_and_signed_witness :
    (stripChars "1:30".toList).contains ':' = true
  ∨ startsWithPT (stripChars "1:30".toList) = true :=
  duration_parser_total_and_signed.1 "1:30".toList (by decide)

/-! ## Plan Executor lemmas -/

theorem runQuerySteps_cons_invoke (invoke : String → List (String × JVal) → JVal)
    {s : PlanStep} {rest : List PlanStep} {acc a : List (String × JVal)}
    (hp : prepareStep s.tool s.arguments = .invokeWith a)
    (hs : signalsRouteSelection s.tool (invoke s.tool a) = false) :
    runQuerySteps invoke (s :: rest) acc
      = runQuerySteps invoke rest (acc ++ [(s.tool, invoke s.tool a)]) := by
  simp only [runQuerySteps, hp]
  simp [hs]

theorem runQuerySteps_cons_signal (invoke : String → List (String × JVal) → JVal)
    {s : PlanStep} {rest : List PlanStep} {acc a : List (String × JVal)}
    (hp : prepareStep s.tool s.arguments = .invokeWith a)
    (hs : signalsRouteSelection s.tool (invoke s.tool a) = true) :
    runQuerySteps invoke (s :: rest) acc
      = .shortCircuited (acc ++ [(s.tool, invoke s.tool a)]) true := by
  simp only [runQuerySteps, hp]
  simp [hs]

/-- C2: for every Plan of 3 steps whose first step is invoked without
signalling, and whose second step is invoked and returns a result
structurally carrying `needs_route_selection`, the Plan Executor executes
exactly steps 1 and 2 and never step 3: the returned result set has exactly
the two entries of steps 1 and 2, carries `needs_route_selection: true`, and
is independent of the third step. -/
theorem executor_short_circuit (invoke : String → List (String × JVal) → JVal)
    (s1 s2 s3 : PlanStep) (a1 a2 : List (String × JVal))
    (h1 : prepareStep s1.tool s1.arguments = .invokeWith a1)
    (hs1 : signalsRouteSelection s1.tool (invoke s1.tool a1) = false)
    (h2 : prepareStep s2.tool s2.arguments = .invokeWith a2)
    (hs2 : signalsRouteSelection s2.tool (invoke s2.tool a2) = true) :
    run_query invoke [s1, s2, s3]
      = .shortCircuited [(s1.tool, invoke s1.tool a1), (s2.tool, invoke s2.tool a2)] true
  ∧ (∀ s3x : PlanStep, run_query invoke [s1, s2, s3x] = run_query invoke [s1, s2, s3]) := by
  have key : ∀ t : PlanStep, run_query invoke [s1, s2, t]
      = .shortCircuited [(s1.tool, invoke s1.tool a1), (s2.tool, invoke s2.tool a2)] true := by
    intro t
    show runQuerySteps invoke [s1, s2, t] [] = _
    rw [runQuerySteps_cons_invoke invoke h1 hs1,
      runQuerySteps_cons_signal invoke h2 hs2]
    simp
  exact ⟨key s3, fun s3x => (key s3x).trans (key s3).symm⟩

/-- Witness for C2: a concrete 3-step plan whose second tool resolves
ambiguously executes steps 1-2 only and reports the route-selection flag. -/
theorem executor_short_circuit_witness :
    run_query invokeW [stepA, stepB, stepC]
      = .shortCircuited [("get_flight_basic_info", okResp), ("get_delay_summary", ambigResp)]
          true :=
  (executor_short_circuit invokeW stepA stepB stepC [] [] rfl rfl rfl rfl).1

/-- C5 counterexample: executing an empty Plan does, by itself, yield an
error to the caller — `run_query` returns the error envelope
`LLM did not produce a valid tool plan.` on the empty plan, contradicting
the claim that an empty Plan never yields an error. -/
theorem empty_plan_error_counterexample :
    run_query (fun _ _ => JVal.null) []
      = .errorResult "LLM did not produce a valid tool plan." := rfl

/-- C5 (amended): a Plan with zero Steps is rejected, not executed:
for every tool-invocation oracle, `run_query` on the empty plan returns the
error envelope `LLM did not produce a valid tool plan.` instead of an empty
result set. -/
theorem empty_plan_rejected (invoke : String → List (String × JVal) → JVal) :
    run_query invoke [] = .errorResult "LLM did not produce a valid tool plan." := rfl

/-- Witness for C5 (amended): the rejection at a concrete oracle. -/
theorem empty_plan_rejected_witness :
    run_query (fun _ _ => JVal.obj []) []
      = .errorResult "LLM did not produce a valid tool plan." :=
  empty_plan_rejected (fun _ _ => JVal.obj [])

/-! ## Argument cleanup lemmas (Python `str(v)` head characters) -/

theorem pyReprChars_head (v : JVal) :
    ∃ c t, pyReprChars v = c :: t ∧ c.isWhitespace = false ∧ Char.toLower c ≠ 'u' := by
  cases v with
  | null => exact ⟨'N', ['o', 'n', 'e'], by simp [pyReprChars], by decide, by decide⟩
  | bool b =>
    cases b with
    | false => exact ⟨'F', ['a', 'l', 's', 'e'], by simp [pyReprChars], by decide, by decide⟩
    | true => exact ⟨'T', ['r', 'u', 'e'], by simp [pyReprChars], by decide, by decide⟩
  | num n =>
    by_cases hn : n < 0
    · exact ⟨'-', natDigits n.natAbs, by simp [pyReprChars, intChars, hn], by decide, by decide⟩
    · obtain ⟨c, t, hct⟩ : ∃ c t, natDigits n.toNat = c :: t := by
        cases h : natDigits n.toNat with
        | nil => exact absurd h (natDigits_ne_nil _)
        | cons c t => exact ⟨c, t, rfl⟩
      have hcd : c ∈ decimalChars := natDigits_mem_decimal _ c (hct ▸ List.mem_cons_self c t)
      have hf := decimal_char_facts hcd
      refine ⟨c, t, by simp [pyReprChars, intChars, hn, hct], hf.2.1, ?_⟩
      rw [hf.2.2.2.2.2.1]
      exact hf.2.2.2.2.2.2
  | str s => exact ⟨pyQuote, s.toList ++ [pyQuote], by simp [pyReprChars], by decide, by decide⟩
  | arr xs => exact ⟨pyLBracket, pyReprList xs ++ [pyRBracket], by simp [pyReprChars],
      by decide, by decide⟩
  | obj fs => exact ⟨pyLBrace, pyReprFields fs ++ [pyRBrace], by simp [pyReprChars],
      by decide, by decide⟩

theorem lower_strip_repr_ne_unknown (v : JVal) :
    lowerChars (stripChars (pyReprChars v)) ≠ "unknown".toList := by
  obtain ⟨c, t, hct, hws, hlt⟩ := pyReprChars_head v
  rw [hct]
  obtain ⟨t2, hstrip⟩ := stripChars_cons_of_head hws
  rw [hstrip]
  intro hcontra
  simp only [lowerChars, List.map_cons] at hcontra
  rw [show "unknown".toList = 'u' :: "nknown".toList from rfl] at hcontra
  exact hlt (List.head_eq_of_cons_eq hcontra)

theorem unknown_token_only_strings (v : JVal)
    (h : lowerChars (stripChars (pyStrChars v)) = "unknown".toList) :
    ∃ s, v = .str s := by
  cases v with
  | str s => exact ⟨s, rfl⟩
  | null => exact absurd (by simpa [pyStrChars] using h) (lower_strip_repr_ne_unknown .null)
  | bool b => exact absurd (by simpa [pyStrChars] using h) (lower_strip_repr_ne_unknown (.bool b))
  | num n => exact absurd (by simpa [pyStrChars] using h) (lower_strip_repr_ne_unknown (.num n))
  | arr xs => exact absurd (by simpa [pyStrChars] using h) (lower_strip_repr_ne_unknown (.arr xs))
  | obj fs => exact absurd (by simpa [pyStrChars] using h) (lower_strip_repr_ne_unknown (.obj fs))

/-- C9 counterexample: a raw-filter step whose `limit` argument is the
string "7" — neither empty nor the "unknown" token, so by the claim it
should pass through unchanged — reaches the operation as the integer 7
instead: the executor coerces it through `int()` before invocation. -/
theorem limit_coercion_counterexample :
    prepareStep "raw_mongodb_query" [("query_json", .str "q"), ("limit", .str "7")]
      = .invokeWith [("query_json", .str "q"), ("limit", .num 7)]
  ∧ truthy (.str "7") = true
  ∧ lowerChars (stripChars (pyStrChars (.str "7"))) ≠ "unknown".toList
  ∧ JVal.str "7" ≠ JVal.num 7 := by
  refine ⟨rfl, rfl, by decide, fun hcontra => JVal.noConfusion hcontra⟩

/-- C9 (amended): before invoking each Step the executor drops exactly those
arguments whose value is falsy (empty, zero, false or null) or whose
rendered text strips and lowercases to the "unknown" token (which can only
happen to string values); every other argument passes through to the
operation unchanged, except that for the raw-filter query operation the
`limit` argument is additionally coerced through `int()` (default 50) before
invocation. -/
theorem argument_cleanup_amended :
    (∀ (args : List (String × JVal)) (k : String) (v : JVal),
        ((k, v) ∈ cleanArgs args ↔
          (k, v) ∈ args ∧ truthy v = true
            ∧ lowerChars (stripChars (pyStrChars v)) ≠ "unknown".toList))
  ∧ (∀ v : JVal, lowerChars (stripChars (pyStrChars v)) = "unknown".toList →
        ∃ s, v = .str s)
  ∧ (∀ (tool : String) (args : List (String × JVal)), tool ≠ "raw_mongodb_query" →
        prepareStep tool args = .invokeWith (cleanArgs args))
  ∧ (∀ (args : List (String × JVal)) (n : Int),
        truthy (jGetD (cleanArgs args) "query_json" (.str "")) = true →
        pyIntJ (jGetD (cleanArgs args) "limit" (.num 50)) = some n →
        prepareStep "raw_mongodb_query" args
          = .invokeWith (dictSet (cleanArgs args) "limit" (.num n))) := by
  refine ⟨?_, ?_, ?_, ?_⟩
  · intro args k v
    simp [cleanArgs, List.mem_filter]
  · exact unknown_token_only_strings
  · intro tool args h
    have hb : (tool == "raw_mongodb_query") = false := beq_eq_false_iff_ne.mpr h
    simp [prepareStep, hb]
  · intro args n hq hl
    simp [prepareStep, hq, hl]

/-- Witness for C9 (amended): a truthy, non-"unknown" argument survives the
cleanup of a concrete argument mapping. -/
theorem argument_cleanup_amended_witness :
    ("carrier", JVal.str "6E")
      ∈ cleanArgs
          [("carrier", .str "6E"), ("startStation", .str ""), ("endStation", .str "unknown")] :=
  (argument_cleanup_amended.1 _ "carrier" (.str "6E")).mpr
    ⟨List.mem_cons_self _ _, rfl, by decide⟩

/-! ## Date validation gap (C4) -/

/-- C4 (code bug): the recognized-format half of the claim holds
("23-06-2024" normalizes to "2024-06-23", "2024-13-45" normalizes to null,
and `get_flight_basic_info` rejects the invalid date with a 400 envelope),
but `get_equipment_info` — an operation the claim covers — has no such
guard: with the invalid date "2024-13-45" it silently drops the date
constraint and proceeds, answering 404 on an empty store and even resolving
a record of a different date (2024-06-23) instead of returning a 400
validation error. -/
theorem date_validation_gap :
    validate_date "23-06-2024" = some "2024-06-23"
  ∧ validate_date "2024-13-45" = none
  ∧ get_flight_basic_info [] "6E" "215" "2024-13-45" none none
      = .error "Invalid date_of_origin format. Expected YYYY-MM-DD or common date formats" 400
  ∧ get_equipment_info [] "6E" "215" "2024-13-45" none none
      = .error "No matching document found." 404
  ∧ get_equipment_info [sampleDoc] "6E" "215" "2024-13-45" none none
      = .resolved sampleDoc := by
  exact ⟨by decide, by decide, by decide, by decide, by decide⟩

/-! ## Raw-filter operator guard (C6) -/

/-- C6: every caller-supplied filter document containing a top-level key
that starts with the expression sigil `$` (the explicit safe set of the
source is empty: every `$`-key is outside it) is rejected with a 400-coded
error envelope; the rejection happens before any store access, since the
returned value is an error and not the `executes` marker that performs the
store read. -/
theorem raw_filter_operator_guard (qf : List (String × JVal)) (projection : Option JVal)
    (limit : Int) (k : String) (hk : k ∈ qf.map Prod.fst)
    (hd : ['$'].isPrefixOf k.toList = true) :
    ∃ msg, raw_mongodb_query (.obj qf) projection limit = .err msg 400 := by
  have hforb : ∃ kv ∈ qf, forbiddenKey kv.1 = true := by
    obtain ⟨kv, hkv, hfst⟩ := List.mem_map.mp hk
    have hkk : forbiddenKey k = true := by
      unfold forbiddenKey
      rw [Bool.or_eq_true]
      exact Or.inr hd
    exact ⟨kv, hkv, by rw [hfst]; exact hkk⟩
  have hsome : (qf.find? (fun kv => forbiddenKey kv.1)).isSome := by
    rw [List.find?_isSome]
    exact hforb
  obtain ⟨kv0, hfind⟩ := Option.isSome_iff_exists.mp hsome
  have hafter : ∀ proj lim, raw_mongodb_query.rawAfterTypeChecks qf proj lim
      = .err ("Operator " ++ kv0.1 ++ " is not allowed.") 400 := by
    intro proj lim
    simp [raw_mongodb_query.rawAfterTypeChecks, hfind]
  cases projection with
  | none =>
    refine ⟨"Operator " ++ kv0.1 ++ " is not allowed.", ?_⟩
    simp only [raw_mongodb_query, hafter]
  | some p =>
    cases hcond : truthy p && !p.isObj with
    | true =>
      exact ⟨"projection must be a JSON object.", by simp [raw_mongodb_query, hcond]⟩
    | false =>
      refine ⟨"Operator " ++ kv0.1 ++ " is not allowed.", ?_⟩
      simp only [raw_mongodb_query, hcond, Bool.false_eq_true, if_false, hafter]

/-- Witness for C6: the filter `{"$where": "1"}` is rejected with a
400-coded error. -/
theorem raw_filter_operator_guard_witness :
    ∃ msg, raw_mongodb_query (.obj [("$where", .str "1")]) none 10 = .err msg 400 :=
  raw_filter_operator_guard [("$where", .str "1")] none 10 "$where" (by decide) (by decide)

/-! ## Aggregation delay-filter rewrite (C7) -/

/-- C7 counterexample: the claim reads both rewrites against one and the
same set of zero-delay sentinel encodings, but the code rewrites `$gt: 0` to
`$nin` over the full four-element sentinel list (PT0H0M, 00:00, the empty
string, null) while it rewrites `$eq: 0` to `$in` over only the two-element
list (PT0H0M, 00:00) — the empty string and null sentinels are missing from
the `$eq` rewrite, so the two target sets differ. -/
theorem delay_rewrite_sentinel_mismatch :
    normalize_filter [("flightLegState.delays.total", .obj [("$gt", .num 0)])]
      = [("flightLegState.delays.total",
          .obj [("$nin", .arr [.str "PT0H0M", .str "00:00", .str "", .null])])]
  ∧ normalize_filter [("flightLegState.delays.total", .obj [("$eq", .num 0)])]
      = [("flightLegState.delays.total",
          .obj [("$in", .arr [.str "PT0H0M", .str "00:00"])])]
  ∧ ([JVal.str "PT0H0M", .str "00:00"]
      ≠ [JVal.str "PT0H0M", .str "00:00", .str "", .null]) := by
  refine ⟨rfl, rfl, ?_⟩
  intro hcontra
  have := congrArg List.length hcontra
  simp at this

/-- C7 (amended): in any filter document, a delay-total entry with a
`$gt: 0` comparison is rewritten to `$nin` against the four zero-delay
sentinel encodings (PT0H0M, 00:00, empty string, null), a delay-total entry
with an `$eq: 0` comparison is rewritten to `$in` against only the two
textual encodings (PT0H0M, 00:00), and every entry whose key does not
reference the delay-total field passes through unchanged. -/
theorem delay_filter_rewrite_amended (pre post : List (String × JVal)) (k : String)
    (hfn : containsSub "flightNumber" k = false)
    (hdt : containsSub "delays.total" k = true) :
    normalize_filter (pre ++ (k, .obj [("$gt", .num 0)]) :: post)
      = normalize_filter pre ++ (k, .obj [("$nin", ninSentinels)]) :: normalize_filter post
  ∧ normalize_filter (pre ++ (k, .obj [("$eq", .num 0)]) :: post)
      = normalize_filter pre ++ (k, .obj [("$in", inSentinels)]) :: normalize_filter post
  ∧ (∀ (k2 : String) (v : JVal), containsSub "delays.total" k2 = false →
      normalize_filter (pre ++ (k2, v) :: post)
        = normalize_filter pre ++ (k2, v) :: normalize_filter post) := by
  refine ⟨?_, ?_, ?_⟩
  · have he : normalizeEntry (k, .obj [("$gt", .num 0)])
        = some (k, .obj [("$nin", ninSentinels)]) := by
      simp [normalizeEntry, hfn, hdt, delayOpsLoop]
    simp only [normalize_filter, List.filterMap_append, List.filterMap_cons, he]
  · have he : normalizeEntry (k, .obj [("$eq", .num 0)])
        = some (k, .obj [("$in", inSentinels)]) := by
      simp [normalizeEntry, hfn, hdt, delayOpsLoop]
    simp only [normalize_filter, List.filterMap_append, List.filterMap_cons, he]
  · intro k2 v h2
    have he : normalizeEntry (k2, v) = some (k2, v) := by
      by_cases hf2 : containsSub "flightNumber" k2
      · simp [normalizeEntry, hf2]
      · simp [normalizeEntry, hf2, h2]
    simp only [normalize_filter, List.filterMap_append, List.filterMap_cons, he]

/-- Witness for C7 (amended): the rewrites at the concrete delay-total field
path with surrounding entries. -/
theorem delay_filter_rewrite_amended_witness :
    normalize_filter
        [("flightLegState.carrier", .str "6E"),
         ("flightLegState.delays.total", .obj [("$gt", .num 0)])]
      = [("flightLegState.carrier", .str "6E"),
         ("flightLegState.delays.total", .obj [("$nin", ninSentinels)])] :=
  (delay_filter_rewrite_amended [("flightLegState.carrier", .str "6E")] []
    "flightLegState.delays.total" (by decide) (by decide)).1

/-! ## Candidate Resolver lemmas (C1) -/

theorem meta_count_eq_length (store : List StoredDoc) (q : Query) (limit : Nat) :
    (find_matching_doc_meta store q limit).count
      = (find_matching_doc_meta store q limit).documents.length := rfl

theorem dedupDocs_all_seen {limit : Nat} :
    ∀ {l : List StoredDoc} {seen} {docs : List Candidate},
      (∀ d ∈ l, ukey d ∈ seen) → dedupDocs limit l seen docs = docs
  | [], _, _, _ => rfl
  | d :: rest, seen, docs, h => by
    simp only [dedupDocs, if_pos (h d (List.mem_cons_self d rest))]
    exact dedupDocs_all_seen (fun e he => h e (List.mem_cons_of_mem d he))

theorem dedupDocs_same_key {limit : Nat} {d : StoredDoc} {rest : List StoredDoc}
    (h : ∀ e ∈ rest, ukey e = ukey d) :
    dedupDocs limit (d :: rest) [] [] = [candOf d] := by
  simp only [dedupDocs, List.not_mem_nil, if_false, List.nil_append]
  by_cases hl : limit ≤ [candOf d].length
  · rw [if_pos hl]
  · rw [if_neg hl]
    exact dedupDocs_all_seen (fun e he => by rw [h e he]; exact List.mem_cons_self _ _)

theorem dedupDocs_sub {limit : Nat} {l : List StoredDoc} :
    ∀ {seen} {docs : List Candidate} {c : Candidate},
      c ∈ dedupDocs limit l seen docs → c ∈ docs ∨ ∃ d ∈ l, c = candOf d := by
  induction l with
  | nil =>
    intro seen docs c h
    exact Or.inl h
  | cons d rest ih =>
    intro seen docs c h
    simp only [dedupDocs] at h
    by_cases hmem : ukey d ∈ seen
    · rw [if_pos hmem] at h
      rcases ih h with h1 | ⟨e, he, hc⟩
      · exact Or.inl h1
      · exact Or.inr ⟨e, List.mem_cons_of_mem d he, hc⟩
    · rw [if_neg hmem] at h
      by_cases hl : limit ≤ (docs ++ [candOf d]).length
      · rw [if_pos hl] at h
        rcases List.mem_append.mp h with h1 | h1
        · exact Or.inl h1
        · exact Or.inr ⟨d, List.mem_cons_self d rest, by simpa using h1⟩
      · rw [if_neg hl] at h
        rcases ih h with h1 | ⟨e, he, hc⟩
        · rcases List.mem_append.mp h1 with h2 | h2
          · exact Or.inl h2
          · exact Or.inr ⟨d, List.mem_cons_self d rest, by simpa using h2⟩
        · exact Or.inr ⟨e, List.mem_cons_of_mem d he, hc⟩

theorem find?_id_of_nodup :
    ∀ {store : List StoredDoc}, (store.map StoredDoc.id).Nodup →
      ∀ {d : StoredDoc}, d ∈ store → store.find? (fun e => e.id == d.id) = some d := by
  intro store
  induction store with
  | nil =>
    intro _ d hd
    exact absurd hd (List.not_mem_nil d)
  | cons e rest ih =>
    intro hnd d hd
    rw [List.map_cons, List.nodup_cons] at hnd
    rcases List.mem_cons.mp hd with rfl | hd2
    · rw [List.find?_cons_of_pos _ (by simp)]
    · have hbf : (e.id == d.id) = false := by
        rw [beq_eq_false_iff_ne]
        intro hcontra
        exact hnd.1 (hcontra ▸ List.mem_map_of_mem StoredDoc.id hd2)
      simp only [List.find?_cons, hbf]
      exact ih hnd.2 hd2

theorem cursor_mem_matched (store : List StoredDoc) (q : Query) (limit : Nat)
    {d : StoredDoc}
    (h : d ∈ (List.insertionSort (fun a b => sstLe a b = true)
        (store.filter (docMatches q))).take (limit * 2)) :
    d ∈ store.filter (docMatches q) :=
  ((List.perm_insertionSort (fun a b => sstLe a b = true)
      (store.filter (docMatches q))).mem_iff).mp
    (List.take_subset (limit * 2) _ h)

/-- C1: the Candidate Resolver deduplicates the raw matching records by the
Canonical Flight Key (any nonempty match set sharing one key yields exactly
1 unique candidate, regardless of how many raw records share it), and the
lookup classification is driven by the unique-candidate count: zero unique
candidates produce the 404 not-found envelope, exactly one produces the
resolved outcome carrying the full stored record, and more than one produces
the ambiguity envelope carrying the full candidate list and the original
query. -/
theorem resolver_dedup_and_classification (store : List StoredDoc) (q : Query)
    (hids : (store.map StoredDoc.id).Nodup) :
    ((store.filter (docMatches q)) ≠ [] →
      (∀ d1 ∈ store.filter (docMatches q), ∀ d2 ∈ store.filter (docMatches q),
        ukey d1 = ukey d2) →
      (find_matching_doc_meta store q 50).count = 1)
  ∧ ((find_matching_doc_meta store q 50).count = 0 →
      classifyLookup store q = .error "No matching document found." 404)
  ∧ ((find_matching_doc_meta store q 50).count = 1 →
      ∃ d ∈ store, docMatches q d = true ∧ classifyLookup store q = .resolved d)
  ∧ (2 ≤ (find_matching_doc_meta store q 50).count →
      classifyLookup store q
        = .ambiguous (find_matching_doc_meta store q 50).count
            (find_matching_doc_meta store q 50).documents q) := by
  refine ⟨?_, ?_, ?_, ?_⟩
  · -- deduplication: a same-key nonempty match set collapses to one candidate
    intro hne hkey
    have hcur_ne : (List.insertionSort (fun a b => sstLe a b = true)
        (store.filter (docMatches q))).take (50 * 2) ≠ [] := by
      intro hc
      rcases List.take_eq_nil_iff.mp hc with h1 | h1
      · omega
      · have hlen := (List.perm_insertionSort (fun a b => sstLe a b = true)
          (store.filter (docMatches q))).length_eq
        rw [h1] at hlen
        simp only [List.length_nil] at hlen
        exact hne (List.eq_nil_of_length_eq_zero hlen.symm)
    obtain ⟨d0, rest, hcursor⟩ := List.exists_cons_of_ne_nil hcur_ne
    have hall : ∀ e ∈ rest, ukey e = ukey d0 := by
      intro e he
      have he_m : e ∈ store.filter (docMatches q) :=
        cursor_mem_matched store q 50 (hcursor ▸ List.mem_cons_of_mem d0 he)
      have hd0_m : d0 ∈ store.filter (docMatches q) :=
        cursor_mem_matched store q 50 (hcursor ▸ List.mem_cons_self d0 rest)
      exact hkey e he_m d0 hd0_m
    rw [meta_count_eq_length]
    show (dedupDocs 50 ((List.insertionSort (fun a b => sstLe a b = true)
        (store.filter (docMatches q))).take (50 * 2)) [] []).length = 1
    rw [hcursor, dedupDocs_same_key hall]
    rfl
  · -- zero unique candidates: 404 not-found envelope
    intro h0
    simp only [classifyLookup]
    rw [if_pos h0]
  · -- exactly one unique candidate: the full record is fetched and returned
    intro h1
    have hlen : (find_matching_doc_meta store q 50).documents.length = 1 := by
      rw [← meta_count_eq_length]
      exact h1
    obtain ⟨c, hc⟩ := List.length_eq_one.mp hlen
    have hcmem : c ∈ dedupDocs 50 ((List.insertionSort (fun a b => sstLe a b = true)
        (store.filter (docMatches q))).take (50 * 2)) [] [] := by
      show c ∈ (find_matching_doc_meta store q 50).documents
      rw [hc]
      exact List.mem_cons_self c []
    rcases dedupDocs_sub hcmem with hfalse | ⟨d, hd_cur, rfl⟩
    · exact absurd hfalse (List.not_mem_nil c)
    · have hd_m := cursor_mem_matched store q 50 hd_cur
      have hd_store : d ∈ store := (List.mem_filter.mp hd_m).1
      have hd_match : docMatches q d = true := (List.mem_filter.mp hd_m).2
      refine ⟨d, hd_store, hd_match, ?_⟩
      simp only [classifyLookup]
      rw [if_neg (by omega), if_pos h1, hc]
      show (match get_document_by_id store (candOf d).doc_id with
        | some doc => Outcome.resolved doc
        | none => Outcome.error "Document not found" 404) = Outcome.resolved d
      have : get_document_by_id store (candOf d).doc_id = some d :=
        find?_id_of_nodup hids hd_store
      rw [this]
  · -- several unique candidates: the ambiguity envelope
    intro h2
    simp only [classifyLookup]
    rw [if_neg (by omega), if_neg (by omega)]

/-- Witness for C1: three raw records of one Canonical Flight Key collapse
to a single unique candidate, and the lookup resolves. -/
theorem resolver_dedup_and_classification_witness :
    ([dupDoc1, dupDoc2, dupDoc3].map StoredDoc.id).Nodup
  ∧ (find_matching_doc_meta [dupDoc1, dupDoc2, dupDoc3] dupQuery 50).count = 1 :=
  ⟨by decide,
    (resolver_dedup_and_classification [dupDoc1, dupDoc2, dupDoc3] dupQuery (by decide)).1
      (by decide) (by decide)⟩

end FlightOps
